import Mathlib

/-!
Verification of the affine-transform convention-conversion subsystem of the
repository (src/utils/registration/io.py and src/utils/registration/affine.py),
shallowly embedded over exact rational arithmetic.  Matrices are
`Matrix (Fin 4) (Fin 4) ℚ`; `np.linalg.inv` is modelled by the computable
`npInv` (reciprocal of the determinant times the adjugate), which coincides
with Mathlib's matrix inverse.
-/

/-- The 4-by-4 rational matrices, modelling the NumPy arrays held by the code. -/
abbrev Mat4 := Matrix (Fin 4) (Fin 4) ℚ

/-- Embedding of `FLIPXY = np.diag([-1, -1, 1, 1])` from io.py. -/
def FLIPXY : Mat4 := Matrix.diagonal ![-1, -1, 1, 1]

/-- Computable model of `np.linalg.inv` on square matrices: the reciprocal of
the determinant times the adjugate.  It agrees with Mathlib's noncomputable
matrix inverse (`npInv_eq`), and is the zero matrix on singular input; the
error raised by NumPy on singular input is modelled separately where it
matters (see `npLinalgInvList`). -/
def npInv {n : ℕ} (A : Matrix (Fin n) (Fin n) ℚ) : Matrix (Fin n) (Fin n) ℚ :=
  A.det⁻¹ • A.adjugate

/-- Embedding of `to_itk_convention` from io.py:
`matrix = np.dot(FLIPXY, matrix); matrix = np.dot(matrix, FLIPXY);
matrix = np.linalg.inv(matrix)`.  The spec calls this `to_lps_convention`. -/
def to_itk_convention (matrix : Mat4) : Mat4 :=
  npInv ((FLIPXY * matrix) * FLIPXY)

/-- Embedding of `from_itk_convention` from io.py:
`matrix = np.dot(matrix, FLIPXY); matrix = np.dot(FLIPXY, matrix);
matrix = np.linalg.inv(matrix)`.  The spec calls this `from_lps_convention`. -/
def from_itk_convention (matrix : Mat4) : Mat4 :=
  npInv (FLIPXY * (matrix * FLIPXY))

/-- Embedding of the value state of `AffineMatrix` from affine.py: the object
stores a floating-to-reference matrix in its `matrix` attribute. -/
structure AffineMatrix where
  matrix : Mat4

/-- Embedding of `AffineMatrix.invert`, which reassigns
`self.matrix = np.linalg.inv(self.matrix)`; modelled as a pure state
transformer on the object's value state. -/
def AffineMatrix.invert (a : AffineMatrix) : AffineMatrix :=
  ⟨npInv a.matrix⟩

/-- Embedding of the `AffineMatrix.inverse` property, which returns a fresh
`AffineMatrix` holding `np.linalg.inv(self.matrix)`. -/
def AffineMatrix.inverse (a : AffineMatrix) : AffineMatrix :=
  ⟨npInv a.matrix⟩

/-!
Heap model for the aliasing question of claim C9.  NumPy arrays live on a
heap (a list of matrices, indexed by allocation order); an `AffineMatrix`
object holds a reference to one of them.  `np.dot` allocates a fresh array
and mutates neither operand; attribute assignment only rebinds the
reference.  The Python constructor `AffineMatrix(other)` with an
`AffineMatrix` argument executes `self.matrix = affine.matrix`, which shares
the array reference.
-/

/-- Heap of allocated NumPy arrays, in allocation order. -/
abbrev NpHeap := List Mat4

/-- An `AffineMatrix` object as it exists at runtime: a reference into the
heap for its `matrix` attribute. -/
structure AffineRef where
  matrixRef : ℕ

/-- Embedding of `np.dot(x, y)` at the heap level: read both operands,
allocate a fresh array holding their product, and return the heap together
with the new array's reference. -/
def npDot (h : NpHeap) (i j : ℕ) : NpHeap × ℕ :=
  (h ++ [h.getD i 0 * h.getD j 0], h.length)

/-- Embedding of `AffineMatrix.right_multiply`: `affine = AffineMatrix(affine)`
shares the argument's array, then `self.matrix = np.dot(self.matrix,
affine.matrix)` rebinds `self.matrix` to a freshly allocated product. -/
def AffineMatrix.right_multiply (h : NpHeap) (self other : AffineRef) :
    NpHeap × AffineRef :=
  let p := npDot h self.matrixRef other.matrixRef
  (p.1, ⟨p.2⟩)

/-- Embedding of `AffineMatrix.__mul__`: `result = AffineMatrix(self)` (which
shares `self`'s array), then `result.right_multiply(other)`, returning
`result`. -/
def AffineMatrix.pyMul (h : NpHeap) (a b : AffineRef) : NpHeap × AffineRef :=
  AffineMatrix.right_multiply h ⟨a.matrixRef⟩ b

/-!
File-level embedding: error kinds, extension validation and read dispatch
from affine.py.  The spec's names are NotFoundError (`FileNotFoundError` in
the code), UnsupportedFormatError (`IOError`), and the format errors raised
while loading text content (`ValueError` from `np.loadtxt`, `LinAlgError`
from `np.linalg.inv`).  `unboundLocal` models the `UnboundLocalError` Python
raises when `AffineMatrix.read` falls through both dispatch branches and
returns the never-assigned local `matrix`.
-/

/-- Kinds of exceptions the subsystem can raise. -/
inductive PyError where
  | notFound
  | unsupportedFormat
  | valueError
  | linAlgError
  | unboundLocal
deriving DecidableEq

/-- A Python value as compared by `==` inside the extension tuple: either a
string or a pair of strings (a 2-tuple).  Python's `==` between a string and
a tuple is False, which structural equality of this type reproduces. -/
inductive PyVal where
  | str (s : String)
  | strPair (a b : String)
deriving DecidableEq

/-- Embedding of `NIFTYREG_EXT = '.txt'` from io.py. -/
def NIFTYREG_EXT : String := ".txt"

/-- Embedding of `ITK_H5 = '.h5'` from io.py. -/
def ITK_H5 : String := ".h5"

/-- Embedding of `ITK_TFM = '.tfm'` from io.py. -/
def ITK_TFM : String := ".tfm"

/-- Embedding of `ITK_EXT = ITK_H5, ITK_TFM` from io.py: a 2-tuple of the two
ITK extensions. -/
def ITK_EXT : PyVal := PyVal.strPair ITK_H5 ITK_TFM

/-- Embedding of `VALID_TRSF_EXTENSIONS = io.NIFTYREG_EXT, io.ITK_EXT` from
affine.py.  Note the code builds a 2-tuple whose second element is itself the
`ITK_EXT` tuple, not a flattened triple of extensions. -/
def VALID_TRSF_EXTENSIONS : List PyVal :=
  [PyVal.str NIFTYREG_EXT, ITK_EXT]

/-- Embedding of `AffineMatrix.parse_extension`: raise `IOError`
(UnsupportedFormatError) when the path's suffix is not `in`
`VALID_TRSF_EXTENSIONS`, where `in` is Python tuple membership by `==`. -/
def parse_extension (suffix : String) : Except PyError Unit :=
  if PyVal.str suffix ∈ VALID_TRSF_EXTENSIONS then Except.ok ()
  else Except.error PyError.unsupportedFormat

/-- Embedding of `AffineMatrix.parse_path`: raise `FileNotFoundError` when
the path is not an existing file, then validate the extension. -/
def parse_path (pathExists : Bool) (suffix : String) : Except PyError Unit :=
  if !pathExists then Except.error PyError.notFound
  else parse_extension suffix

/-- The two on-disk transform formats a read can dispatch to. -/
inductive ReadFormat where
  | niftyreg
  | itk
deriving DecidableEq

/-- Embedding of the control flow of `AffineMatrix.read`: `parse_path` first,
then dispatch on the suffix, where the second branch compares the suffix
string with the tuple `ITK_EXT` using `==` (always False in Python), and
falling through both branches leaves the local `matrix` unassigned. -/
def read_dispatch (pathExists : Bool) (suffix : String) :
    Except PyError ReadFormat :=
  match parse_path pathExists suffix with
  | Except.error e => Except.error e
  | Except.ok _ =>
    if suffix = NIFTYREG_EXT then Except.ok ReadFormat.niftyreg
    else if PyVal.str suffix = ITK_EXT then Except.ok ReadFormat.itk
    else Except.error PyError.unboundLocal

/-- Serialization of a square matrix as the list of its rows, modelling the
two-dimensional NumPy array laid out row by row. -/
def matToList {n : ℕ} (A : Matrix (Fin n) (Fin n) ℚ) : List (List ℚ) :=
  (List.finRange n).map fun i => (List.finRange n).map fun j => A i j

/-- The square matrix held by a row-major list of rows (entries beyond the
stored data default to 0; only square inputs are ever converted). -/
def listToMat (rows : List (List ℚ)) :
    Matrix (Fin rows.length) (Fin rows.length) ℚ :=
  Matrix.of fun i j => (rows.getD i []).getD j 0

/-- Model of `np.linalg.inv` applied to the array `np.loadtxt` produced from
a text file, at the level of its rows: NumPy raises `LinAlgError` when the
array is empty or one-dimensional or not square or singular, and otherwise
returns the inverse.  The inverse itself is `npInv` of the held matrix. -/
def npLinalgInvList (rows : List (List ℚ)) : Except PyError (List (List ℚ)) :=
  if rows.isEmpty then Except.error PyError.linAlgError
  else if rows.all fun r => r.length == rows.length then
    if (listToMat rows).det = 0 then Except.error PyError.linAlgError
    else Except.ok (matToList (npInv (listToMat rows)))
  else Except.error PyError.linAlgError

/-- Embedding of `read_niftyreg_matrix` from io.py: `np.loadtxt` (an external
parser, whose outcome — a parse error such as `ValueError`, or the parsed
rows — is the input here) followed by `np.linalg.inv`. -/
def read_niftyreg_matrix :
    Except PyError (List (List ℚ)) → Except PyError (List (List ℚ))
  | Except.error e => Except.error e
  | Except.ok rows => npLinalgInvList rows

/-- Rounding to 8 decimal places, modelling the `fmt='%.8f'` fixed-point
serialization of `np.savetxt` (round to nearest multiple of 1e-8). -/
def round8 (q : ℚ) : ℚ := (round (q * 100000000) : ℚ) / 100000000

/-- Embedding of `write_niftyreg_matrix` from io.py: invert the matrix with
`np.linalg.inv`, then serialize its rows with 8 decimal places. -/
def write_niftyreg_matrix (matrix : Mat4) : List (List ℚ) :=
  matToList (Matrix.of fun i j => round8 (npInv matrix i j))

/-- The text-format round trip of claim C5: write a matrix with
`write_niftyreg_matrix`, then read the written rows back with
`read_niftyreg_matrix`. -/
def textRoundTrip (matrix : Mat4) : Except PyError (List (List ℚ)) :=
  read_niftyreg_matrix (Except.ok (write_niftyreg_matrix matrix))

/-- Rows of a text file holding the 3-by-3 identity matrix: numeric, square,
but not 4-by-4. -/
def id3rows : List (List ℚ) := [[1, 0, 0], [0, 1, 0], [0, 0, 1]]

/-- A concrete ill-conditioned invertible matrix: the inverse of its
first diagonal entry, 4e-9, rounds to zero at 8 decimal places. -/
def M0 : Mat4 := Matrix.diagonal ![250000000, 1, 1, 1]

lemma npInv_eq {n : ℕ} (A : Matrix (Fin n) (Fin n) ℚ) : npInv A = A⁻¹ := by
  rw [npInv, Matrix.inv_def, Ring.inverse_eq_inv']

lemma FLIPXY_mul_self : FLIPXY * FLIPXY = 1 := by
  rw [FLIPXY, Matrix.diagonal_mul_diagonal]
  have h : (fun i => ![-1, -1, 1, 1] i * ![-1, -1, 1, 1] i : Fin 4 → ℚ) = fun _ => 1 := by
    funext i
    fin_cases i <;> norm_num
  rw [h, Matrix.diagonal_one]

lemma FLIPXY_inv : FLIPXY⁻¹ = FLIPXY := Matrix.inv_eq_right_inv FLIPXY_mul_self

lemma to_itk_eq_from_itk (M : Mat4) : to_itk_convention M = from_itk_convention M := by
  rw [to_itk_convention, from_itk_convention, Matrix.mul_assoc]

lemma from_itk_to_itk (M : Mat4) (h : IsUnit M.det) :
    from_itk_convention (to_itk_convention M) = M := by
  simp only [to_itk_eq_from_itk, from_itk_convention, npInv_eq]
  rw [Matrix.mul_inv_rev FLIPXY (M * FLIPXY), Matrix.mul_inv_rev M FLIPXY,
    FLIPXY_inv, Matrix.mul_assoc (FLIPXY * M⁻¹) FLIPXY FLIPXY,
    FLIPXY_mul_self, Matrix.mul_one, ← Matrix.mul_assoc FLIPXY FLIPXY M⁻¹,
    FLIPXY_mul_self, Matrix.one_mul]
  exact Matrix.nonsing_inv_nonsing_inv M h

lemma det_FLIPXY : FLIPXY.det = 1 := by
  rw [FLIPXY, Matrix.det_diagonal]
  norm_num [Fin.prod_univ_four]

lemma isUnit_det_flip_conj (M : Mat4) (h : IsUnit M.det) :
    IsUnit ((FLIPXY * M) * FLIPXY).det := by
  have hd : ((FLIPXY * M) * FLIPXY).det = M.det := by
    rw [Matrix.det_mul, Matrix.det_mul, det_FLIPXY, one_mul, mul_one]
  rwa [hd]

lemma getD_append_left {α : Type} (l l' : List α) (d : α) (n : ℕ)
    (hn : n < l.length) : (l ++ l').getD n d = l.getD n d := by
  induction l generalizing n with
  | nil => exact absurd hn (Nat.not_lt_zero n)
  | cons x xs ih =>
    cases n with
    | zero => rfl
    | succ m => exact ih m (Nat.lt_of_succ_lt_succ hn)

lemma getD_append_length {α : Type} (l : List α) (a d : α) :
    (l ++ [a]).getD l.length d = a := by
  induction l with
  | nil => rfl
  | cons x xs ih => exact ih

lemma npLinalgInvList_ok (rows : List (List ℚ))
    (h0 : rows.isEmpty = false)
    (hsq : (rows.all fun r => r.length == rows.length) = true)
    (hdet : (listToMat rows).det ≠ 0) :
    npLinalgInvList rows = Except.ok (matToList (npInv (listToMat rows))) := by
  unfold npLinalgInvList
  rw [h0, hsq]
  simp only [Bool.false_eq_true, if_false, if_true]
  rw [if_neg hdet]

lemma npLinalgInvList_not_square (rows : List (List ℚ))
    (hsq : (rows.all fun r => r.length == rows.length) = false) :
    npLinalgInvList rows = Except.error PyError.linAlgError := by
  unfold npLinalgInvList
  cases he : rows.isEmpty with
  | true => simp [he]
  | false => simp [he, hsq]

lemma npLinalgInvList_det_zero (rows : List (List ℚ))
    (hdet : (listToMat rows).det = 0) :
    npLinalgInvList rows = Except.error PyError.linAlgError := by
  unfold npLinalgInvList
  cases he : rows.isEmpty with
  | true => simp [he]
  | false =>
    cases ha : rows.all fun r => r.length == rows.length with
    | true => simp [he, ha, hdet]
    | false => simp [he, ha]

lemma id3_listToMat : listToMat id3rows = (1 : Matrix (Fin 3) (Fin 3) ℚ) := by
  apply Matrix.ext
  intro i j
  fin_cases i <;> fin_cases j <;> rfl

lemma id3_read : read_niftyreg_matrix (Except.ok id3rows) = Except.ok id3rows := by
  show npLinalgInvList id3rows = Except.ok id3rows
  rw [npLinalgInvList_ok id3rows rfl rfl (by rw [id3_listToMat, Matrix.det_one]; norm_num)]
  rw [id3_listToMat, npInv_eq, inv_one]
  rfl

lemma listToMat_matToList (A : Mat4) : listToMat (matToList A) = A := by
  apply Matrix.ext
  intro i j
  fin_cases i <;> fin_cases j <;> rfl

lemma matToList_round8_eq (M : Mat4)
    (hr : ∀ i j, round8 (npInv M i j) = npInv M i j) :
    write_niftyreg_matrix M = matToList (npInv M) := by
  unfold write_niftyreg_matrix
  congr 1
  apply Matrix.ext
  intro i j
  exact hr i j

lemma round8_zero : round8 0 = 0 := by
  rw [round8, round_eq]
  norm_num

lemma round8_one : round8 1 = 1 := by
  rw [round8, round_eq]
  norm_num

lemma npInv_one : npInv (1 : Mat4) = 1 := by
  rw [npInv_eq, inv_one]

lemma round8_fixes_one :
    ∀ i j, round8 (npInv (1 : Mat4) i j) = npInv (1 : Mat4) i j := by
  intro i j
  rw [npInv_one]
  by_cases hij : i = j
  · rw [hij, Matrix.one_apply_eq, round8_one]
  · rw [Matrix.one_apply_ne hij, round8_zero]

lemma M0_inv : npInv M0 = Matrix.diagonal ![(250000000 : ℚ)⁻¹, 1, 1, 1] := by
  rw [npInv_eq]
  apply Matrix.inv_eq_right_inv
  rw [M0, Matrix.diagonal_mul_diagonal]
  have h : (fun i => ![(250000000 : ℚ), 1, 1, 1] i *
      ![(250000000 : ℚ)⁻¹, 1, 1, 1] i) = fun _ => (1 : ℚ) := by
    funext i
    fin_cases i <;> norm_num
  rw [h, Matrix.diagonal_one]

lemma M0_written :
    write_niftyreg_matrix M0 = matToList (Matrix.diagonal ![(0 : ℚ), 1, 1, 1]) := by
  unfold write_niftyreg_matrix
  congr 1
  apply Matrix.ext
  intro i j
  rw [M0_inv]
  fin_cases i <;> fin_cases j <;>
    simp [Matrix.diagonal, round8_zero, round8_one]
  rw [round8, round_eq]
  norm_num

/-- Claim C1: for every invertible 4-by-4 matrix M, applying
`to_itk_convention` and then `from_itk_convention` returns M exactly
(exact arithmetic model of the float computation). -/
theorem claim_C1 (M : Mat4) (h : IsUnit M.det) :
    from_itk_convention (to_itk_convention M) = M :=
  from_itk_to_itk M h

/-- Claim C1 witness: the round trip at the identity matrix. -/
theorem claim_C1_witness :
    IsUnit (1 : Mat4).det ∧ from_itk_convention (to_itk_convention 1) = 1 :=
  ⟨by simp, claim_C1 1 (by simp)⟩

/-- Claim C2 evaluated on the code: a `.txt` path passes validation and
dispatches to the NiftyReg reader, and `.csv` fails as the claim states, but
the recognized ITK extensions `.tfm` and `.h5` are rejected with
UnsupportedFormatError, because `VALID_TRSF_EXTENSIONS` nests them inside an
inner tuple that tuple membership never matches. -/
theorem claim_C2 :
    read_dispatch true ".txt" = Except.ok ReadFormat.niftyreg ∧
    read_dispatch true ".csv" = Except.error PyError.unsupportedFormat ∧
    read_dispatch true ".tfm" = Except.error PyError.unsupportedFormat ∧
    read_dispatch true ".h5" = Except.error PyError.unsupportedFormat :=
  ⟨rfl, rfl, rfl, rfl⟩

/-- Claim C3: for every invertible matrix M, `to_itk_convention M` is the
inverse of FLIPXY * M * FLIPXY: it equals Mathlib's nonsingular inverse and
is a two-sided multiplicative inverse of FLIPXY * M * FLIPXY. -/
theorem claim_C3 (M : Mat4) (h : IsUnit M.det) :
    to_itk_convention M = (FLIPXY * M * FLIPXY)⁻¹ ∧
    (FLIPXY * M * FLIPXY) * to_itk_convention M = 1 ∧
    to_itk_convention M * (FLIPXY * M * FLIPXY) = 1 := by
  have he : to_itk_convention M = (FLIPXY * M * FLIPXY)⁻¹ := by
    rw [to_itk_convention, npInv_eq]
  exact ⟨he, by rw [he]; exact Matrix.mul_nonsing_inv _ (isUnit_det_flip_conj M h),
    by rw [he]; exact Matrix.nonsing_inv_mul _ (isUnit_det_flip_conj M h)⟩

/-- Claim C3 witness: instantiated at the identity matrix. -/
theorem claim_C3_witness :
    IsUnit (1 : Mat4).det ∧
    (to_itk_convention 1 = (FLIPXY * 1 * FLIPXY)⁻¹ ∧
     (FLIPXY * 1 * FLIPXY) * to_itk_convention 1 = 1 ∧
     to_itk_convention 1 * (FLIPXY * 1 * FLIPXY) = 1) :=
  ⟨by simp, claim_C3 1 (by simp)⟩

/-- Claim C4 counterexample: a parsed numeric matrix that is square but
3-by-3, not 4-by-4, is read back successfully (as its own inverse, the
identity) instead of failing with a format error. -/
theorem claim_C4_counterexample :
    read_niftyreg_matrix (Except.ok id3rows) = Except.ok id3rows ∧
    id3rows.length ≠ 4 :=
  ⟨id3_read, by decide⟩

/-- Claim C4 as amended: reading the text format fails when the contents
cannot be parsed (the parse error propagates), and when the parsed matrix is
not square, and when it is square but singular; but a square invertible
numeric matrix of any size is accepted — there is no 4-by-4 shape check. -/
theorem claim_C4 :
    (∀ e : PyError, read_niftyreg_matrix (Except.error e) = Except.error e) ∧
    (∀ rows : List (List ℚ), (rows.all fun r => r.length == rows.length) = false →
      read_niftyreg_matrix (Except.ok rows) = Except.error PyError.linAlgError) ∧
    (∀ rows : List (List ℚ), (listToMat rows).det = 0 →
      read_niftyreg_matrix (Except.ok rows) = Except.error PyError.linAlgError) ∧
    read_niftyreg_matrix (Except.ok id3rows) = Except.ok id3rows :=
  ⟨fun _ => rfl, fun rows h => npLinalgInvList_not_square rows h,
    fun rows h => npLinalgInvList_det_zero rows h, id3_read⟩

/-- Claim C4 witness: the non-square branch at a concrete ragged input, and
the singular branch at the 1-by-1 zero matrix given as concrete rows. -/
theorem claim_C4_witness :
    (([[ (1:ℚ), 2], [3]].all fun r => r.length == [[ (1:ℚ), 2], [3]].length) = false ∧
      read_niftyreg_matrix (Except.ok [[ (1:ℚ), 2], [3]]) =
        Except.error PyError.linAlgError) ∧
    ((listToMat [[(0:ℚ)]]).det = 0 ∧
      read_niftyreg_matrix (Except.ok [[(0:ℚ)]]) =
        Except.error PyError.linAlgError) :=
  ⟨⟨by decide, claim_C4.2.1 _ (by decide)⟩,
    ⟨by (show Matrix.det _ = 0; rw [Matrix.det_fin_one]; rfl),
      claim_C4.2.2.1 _ (by (show Matrix.det _ = 0; rw [Matrix.det_fin_one]; rfl))⟩⟩

/-- Claim C5 as amended: for every invertible matrix whose inverse has all
entries exactly representable at 8 decimal places (so the fixed-point
serialization stores them unchanged), writing to the text format and reading
back yields exactly the original matrix.  Without that representability
condition the 1e-6 bound fails: see the counterexample, where the round trip
does not return a matrix at all. -/
theorem claim_C5 (M : Mat4) (h : IsUnit M.det)
    (hr : ∀ i j, round8 (npInv M i j) = npInv M i j) :
    textRoundTrip M = Except.ok (matToList M) := by
  show read_niftyreg_matrix (Except.ok (write_niftyreg_matrix M)) = _
  rw [matToList_round8_eq M hr]
  show npLinalgInvList (matToList (npInv M)) = _
  rw [npLinalgInvList_ok (matToList (npInv M)) rfl rfl
    (by rw [listToMat_matToList, npInv_eq]
        exact (Matrix.isUnit_nonsing_inv_det M h).ne_zero)]
  rw [listToMat_matToList]
  show Except.ok (matToList (npInv (npInv M))) = _
  rw [npInv_eq, npInv_eq, Matrix.nonsing_inv_nonsing_inv M h]

/-- Claim C5 witness: the round trip at the identity matrix, whose inverse is
stored exactly by the 8-decimal serialization. -/
theorem claim_C5_witness :
    (IsUnit (1 : Mat4).det ∧
      ∀ i j, round8 (npInv (1 : Mat4) i j) = npInv (1 : Mat4) i j) ∧
    textRoundTrip 1 = Except.ok (matToList (1 : Mat4)) :=
  ⟨⟨by simp, round8_fixes_one⟩, claim_C5 1 (by simp) round8_fixes_one⟩

/-- Claim C5 counterexample: M0 is invertible, yet writing it to the text
format and reading back does not yield M0 within any tolerance — the
8-decimal serialization rounds the inverse's 4e-9 entry to zero, the written
matrix is singular, and the read fails with a numeric error. -/
theorem claim_C5_counterexample :
    IsUnit M0.det ∧ textRoundTrip M0 = Except.error PyError.linAlgError := by
  constructor
  · rw [M0, Matrix.det_diagonal]
    rw [show (Finset.univ.prod fun i => ![(250000000 : ℚ), 1, 1, 1] i) =
      250000000 by rw [Fin.prod_univ_four]; norm_num]
    norm_num
  · show read_niftyreg_matrix (Except.ok (write_niftyreg_matrix M0)) = _
    rw [M0_written]
    show npLinalgInvList (matToList (Matrix.diagonal ![(0 : ℚ), 1, 1, 1])) = _
    apply npLinalgInvList_det_zero
    rw [listToMat_matToList, Matrix.det_diagonal]
    show (∏ i : Fin 4, ![(0 : ℚ), 1, 1, 1] i) = 0
    rw [Fin.prod_univ_four]
    norm_num

/-- Claim C6: reading any path that is not an existing file fails with the
not-found error, whatever its suffix, and that error kind is distinct from
the unsupported-format error and from both malformed-content error kinds. -/
theorem claim_C6 (suffix : String) :
    read_dispatch false suffix = Except.error PyError.notFound ∧
    PyError.notFound ≠ PyError.unsupportedFormat ∧
    PyError.notFound ≠ PyError.valueError ∧
    PyError.notFound ≠ PyError.linAlgError :=
  ⟨rfl, by decide, by decide, by decide⟩

/-- Claim C6 witness: a missing file with the `.txt` suffix. -/
theorem claim_C6_witness :
    read_dispatch false ".txt" = Except.error PyError.notFound ∧
    PyError.notFound ≠ PyError.unsupportedFormat ∧
    PyError.notFound ≠ PyError.valueError ∧
    PyError.notFound ≠ PyError.linAlgError :=
  claim_C6 ".txt"

/-- Claim C7: both convention conversions map the identity matrix to the
identity matrix. -/
theorem claim_C7 : to_itk_convention 1 = 1 ∧ from_itk_convention 1 = 1 := by
  constructor <;>
    simp [to_itk_convention, from_itk_convention, npInv_eq, Matrix.mul_one,
      Matrix.one_mul, FLIPXY_mul_self, inv_one]

/-- Claim C8: inverting twice restores the original matrix for every
invertible input. -/
theorem claim_C8 (a : AffineMatrix) (h : IsUnit a.matrix.det) :
    a.invert.invert = a := by
  cases a with
  | mk m =>
    simp only [AffineMatrix.invert, npInv_eq, AffineMatrix.mk.injEq]
    exact Matrix.nonsing_inv_nonsing_inv m h

/-- Claim C8 witness: double inversion at the identity matrix. -/
theorem claim_C8_witness :
    IsUnit (AffineMatrix.mk 1).matrix.det ∧
    (AffineMatrix.mk 1).invert.invert = AffineMatrix.mk 1 :=
  ⟨by simp, claim_C8 ⟨1⟩ (by simp)⟩

/-- Claim C9: `a * b` allocates a fresh result whose matrix is the product
`a.matrix * b.matrix`, and the arrays referenced by `a` and by `b` are left
unchanged on the heap; the result aliases neither operand. -/
theorem claim_C9 (h : NpHeap) (a b : AffineRef)
    (ha : a.matrixRef < h.length) (hb : b.matrixRef < h.length) :
    (AffineMatrix.pyMul h a b).1.getD (AffineMatrix.pyMul h a b).2.matrixRef 0 =
      h.getD a.matrixRef 0 * h.getD b.matrixRef 0 ∧
    (AffineMatrix.pyMul h a b).1.getD a.matrixRef 0 = h.getD a.matrixRef 0 ∧
    (AffineMatrix.pyMul h a b).1.getD b.matrixRef 0 = h.getD b.matrixRef 0 ∧
    (AffineMatrix.pyMul h a b).2.matrixRef ≠ a.matrixRef ∧
    (AffineMatrix.pyMul h a b).2.matrixRef ≠ b.matrixRef := by
  refine ⟨?_, ?_, ?_, ?_, ?_⟩
  · exact getD_append_length h _ 0
  · exact getD_append_left h _ 0 a.matrixRef ha
  · exact getD_append_left h _ 0 b.matrixRef hb
  · intro he
    have hlen : h.length = a.matrixRef := he
    omega
  · intro he
    have hlen : h.length = b.matrixRef := he
    omega

/-- Claim C9 witness: multiplication on a one-array heap holding the identity
matrix, with both operands referencing that array. -/
theorem claim_C9_witness :
    ((0 : ℕ) < [(1 : Mat4)].length ∧ (0 : ℕ) < [(1 : Mat4)].length) ∧
    ((AffineMatrix.pyMul [(1 : Mat4)] ⟨0⟩ ⟨0⟩).1.getD
        (AffineMatrix.pyMul [(1 : Mat4)] ⟨0⟩ ⟨0⟩).2.matrixRef 0 =
      [(1 : Mat4)].getD 0 0 * [(1 : Mat4)].getD 0 0 ∧
    (AffineMatrix.pyMul [(1 : Mat4)] ⟨0⟩ ⟨0⟩).1.getD 0 0 = [(1 : Mat4)].getD 0 0 ∧
    (AffineMatrix.pyMul [(1 : Mat4)] ⟨0⟩ ⟨0⟩).1.getD 0 0 = [(1 : Mat4)].getD 0 0 ∧
    (AffineMatrix.pyMul [(1 : Mat4)] ⟨0⟩ ⟨0⟩).2.matrixRef ≠ 0 ∧
    (AffineMatrix.pyMul [(1 : Mat4)] ⟨0⟩ ⟨0⟩).2.matrixRef ≠ 0) :=
  ⟨⟨Nat.zero_lt_one, Nat.zero_lt_one⟩,
    claim_C9 [(1 : Mat4)] ⟨0⟩ ⟨0⟩ Nat.zero_lt_one Nat.zero_lt_one⟩

/-- Claim C10: `to_itk_convention` and `from_itk_convention` are extensionally
equal (both compute the inverse of FLIPXY * M * FLIPXY), and hence each is an
involution on invertible matrices. -/
theorem claim_C10 :
    (∀ M : Mat4, to_itk_convention M = from_itk_convention M) ∧
    (∀ M : Mat4, IsUnit M.det →
      to_itk_convention (to_itk_convention M) = M) := by
  refine ⟨to_itk_eq_from_itk, fun M h => ?_⟩
  rw [to_itk_eq_from_itk (to_itk_convention M)]
  exact from_itk_to_itk M h

/-- Claim C10 witness: the involution property at the identity matrix. -/
theorem claim_C10_witness :
    IsUnit (1 : Mat4).det ∧ to_itk_convention (to_itk_convention 1) = 1 :=
  ⟨by simp, claim_C10.2 1 (by simp)⟩
